import Mathlib

/-!
# pippin_nano_wallet: proof-of-work peer race and wallet entry points

Shallow embedding of libs/pow/work_peer_pow.go (the race of work peers over one
result channel) as an event-driven transition system, and of the wallet registry
entry points exercised by libs/wallet/wallet_test.go and apps/cli/main.go.

Definitions come first (the Go runtime fragments, the race, the wallet registry),
then the lemmas and the theorems about them.
-/

namespace Pow

/-! ## Go runtime fragments used by the source -/

/-- Outcome of running a piece of Go code: normal completion with a value, a panic
that leaves the code, or a goroutine parked on a channel operation. -/
inductive Completion (α : Type) where
  | done (a : α)
  | panicked (v : String)
  | blocked
  deriving DecidableEq

/-- A Go channel of string pointers: capacity, buffered values in FIFO order and the
closed flag. The field sent is a history variable: every value ever enqueued, in
order; no operation reads it. -/
structure Chan where
  cap : Nat
  buf : List String
  closed : Bool
  sent : List String
  deriving DecidableEq

/-- Channel creation, make(chan *string, n). -/
def makeChan (n : Nat) : Chan :=
  { cap := n, buf := [], closed := false, sent := [] }

/-- Send statement, ch <- v: panics on a closed channel, enqueues when a buffer slot
is free, parks the sender otherwise. -/
def chanSend (c : Chan) (v : String) : Completion Chan :=
  if c.closed then .panicked "send on closed channel"
  else if c.buf.length < c.cap then
    .done { c with buf := c.buf ++ [v], sent := c.sent ++ [v] }
  else .blocked

/-- Receive expression, <-ch: the oldest buffered value; the nil pointer (none) from
a closed and drained channel; parks the receiver on an open empty channel. -/
def chanRecv (c : Chan) : Completion (Chan × Option String) :=
  match c.buf with
  | v :: rest => .done ({ c with buf := rest }, some v)
  | [] => if c.closed then .done (c, none) else .blocked

/-- Builtin close(ch): panics on an already closed channel. -/
def chanClose (c : Chan) : Completion Chan :=
  if c.closed then .panicked "close of closed channel"
  else .done { c with closed := true }

/-! ## work_peer_pow.go -/

/-- Return values (resp, err) of net.MakeWorkGenerateRequest as the caller sees
them: the error, and resp.Work. -/
structure WorkResponse where
  err : Option String
  Work : String
  deriving DecidableEq

/-- The deferred closure of WriteChannelSafe (lines 61-67): with r the value of
recover(), a non-nil r overwrites the named result err. -/
def WriteChannelSafe_deferred (r : Option String) (err : Option String) : Option String :=
  match r with
  | some v => some v
  | none => err

/-- WriteChannelSafe (lines 60-72): the send of line 69 runs under the deferred
recover; the result is the channel afterwards and the returned err. -/
def WriteChannelSafe (out : Chan) (msg : String) : Completion (Chan × Option String) :=
  match chanSend out msg with
  | .done out1 => .done (out1, WriteChannelSafe_deferred none none)
  | .panicked v => .done (out, WriteChannelSafe_deferred (some v) none)
  | .blocked => .blocked

/-- WorkGenerateAPIRequest (lines 17-23) from the point where the request of line
19 has returned resp: the guard of line 20 and the write of line 21. -/
def WorkGenerateAPIRequest (resp : WorkResponse) (out : Chan) : Completion Chan :=
  if resp.err = none ∧ resp.Work ≠ "" then
    match WriteChannelSafe out resp.Work with
    | .done (out1, _) => .done out1
    | .panicked v => .panicked v
    | .blocked => .blocked
  else .done out

/-- Whether a run of WorkGenerateAPIRequest enqueues a value on the channel. -/
def Delivers (resp : WorkResponse) (out : Chan) : Bool :=
  match WorkGenerateAPIRequest resp out with
  | .done out1 => decide (out1.buf = out.buf ++ [resp.Work])
  | _ => false

/-- One goroutine started at line 39. -/
inductive Task where
  | requesting
  | responded (r : WorkResponse)
  | finished (r : WorkResponse)
  | crashed (v : String)
  deriving DecidableEq

/-- Control point of WorkGeneratePeers itself: parked in the select of line 42; a
return statement executed with the deferred calls still to run; returned to the
caller; or left by a panic. -/
inductive MainPc where
  | selecting
  | returning (work : String) (err : Option String)
  | returned (work : String) (err : Option String)
  | crashed (v : String)
  deriving DecidableEq

/-- State of one call of WorkGeneratePeers. cancels lists the WorkCancelAPIRequest
goroutines launched so far as (url, hash). -/
structure State where
  WorkPeers : List String
  hash : String
  difficulty : String
  resultChan : Chan
  tasks : List Task
  timerFired : Bool
  ctxCancelled : Bool
  cancels : List (String × String)
  main : MainPc
  deriving DecidableEq

/-- What the environment and the scheduler can make happen. -/
inductive Event where
  | respond (i : Nat) (r : WorkResponse)
  | write (i : Nat)
  | timer
  | selectResult
  | selectTimeout
  | deferred
  deriving DecidableEq

/-- WorkCancelAPIRequest (lines 25-27): the work_cancel request it makes, as
(url, hash); nothing of its outcome is kept. -/
def WorkCancelAPIRequest (url : String) (hash : String) : String × String :=
  (url, hash)

/-- The loops of lines 45-47 and 52-54: one WorkCancelAPIRequest per entry of
WorkPeers, with the hash of the call. -/
def launchCancels (s : State) : List (String × String) :=
  s.cancels ++ s.WorkPeers.map (fun peer => WorkCancelAPIRequest peer s.hash)

/-- A goroutine of line 39 that has not returned yet. -/
def Task.isPending : Task → Bool
  | .requesting => true
  | .responded _ => true
  | _ => false

/-- Number of goroutines of line 39 that have not returned. -/
def pending (ts : List Task) : Nat :=
  ts.countP Task.isPending

/-- The values returned by the call once its return statement has run. -/
def State.result (s : State) : Option (String × Option String) :=
  match s.main with
  | .returning w e => some (w, e)
  | .returned w e => some (w, e)
  | _ => none

/-- One transition. respond: the request of task i returns r. write: task i runs
lines 20-23. timer: the channel of time.After receives. selectResult and
selectTimeout: the two cases of the select. deferred: close(resultChan) and cancel(). -/
def step (s : State) : Event → Option State
  | .respond i r =>
    match s.tasks[i]? with
    | some .requesting => some { s with tasks := s.tasks.set i (.responded r) }
    | _ => none
  | .write i =>
    match s.tasks[i]? with
    | some (.responded r) =>
      match WorkGenerateAPIRequest r s.resultChan with
      | .done out => some { s with tasks := s.tasks.set i (.finished r), resultChan := out }
      | .panicked v => some { s with tasks := s.tasks.set i (.crashed v) }
      | .blocked => none
    | _ => none
  | .timer => if s.timerFired then none else some { s with timerFired := true }
  | .selectResult =>
    match s.main with
    | .selecting =>
      match chanRecv s.resultChan with
      | .done (out, some result) =>
        some { s with resultChan := out, cancels := launchCancels s,
                      main := .returning result none }
      | .done (out, none) =>
        some { s with resultChan := out, cancels := launchCancels s,
                      main := .crashed "nil pointer dereference" }
      | .panicked v => some { s with main := .crashed v }
      | .blocked => none
    | _ => none
  | .selectTimeout =>
    match s.main with
    | .selecting =>
      if s.timerFired then
        some { s with cancels := launchCancels s,
                      main := .returning "" (some "Unable to generate work") }
      else none
    | _ => none
  | .deferred =>
    match s.main with
    | .returning w e =>
      match chanClose s.resultChan with
      | .done out => some { s with resultChan := out, ctxCancelled := true, main := .returned w e }
      | .panicked v => some { s with main := .crashed v }
      | .blocked => none
    | _ => none

/-- Lines 31-40: the context, the channel of capacity len(p.WorkPeers) and one
goroutine per peer; the call is then at the select. -/
def initState (WorkPeers : List String) (hash difficulty : String) : State :=
  { WorkPeers := WorkPeers, hash := hash, difficulty := difficulty,
    resultChan := makeChan WorkPeers.length,
    tasks := WorkPeers.map (fun _ => Task.requesting),
    timerFired := false, ctxCancelled := false, cancels := [], main := .selecting }

/-- Run a schedule of events; none when some event is not enabled. -/
def run (s : State) : List Event → Option State
  | [] => some s
  | e :: es => (step s e).bind (fun s1 => run s1 es)

/-- WorkGeneratePeers (lines 30-57) under a schedule: the state reached. -/
def WorkGeneratePeers (WorkPeers : List String) (hash difficulty : String)
    (schedule : List Event) : Option State :=
  run (initState WorkPeers hash difficulty) schedule

/-! ## Example runs -/

/-- Example schedule for peers a and b: both answer, b delivers first, the call
takes the result and returns. -/
def scheduleBothAnswer : List Event :=
  [Event.respond 1 { err := none, Work := "w2" },
   Event.respond 0 { err := none, Work := "w1" },
   Event.write 1, Event.write 0, Event.selectResult, Event.deferred]

/-- State reached by scheduleBothAnswer. -/
def stateBothAnswer : State :=
  { WorkPeers := ["a", "b"], hash := "h", difficulty := "d",
    resultChan := { cap := 2, buf := ["w1"], closed := true, sent := ["w2", "w1"] },
    tasks := [Task.finished { err := none, Work := "w1" },
              Task.finished { err := none, Work := "w2" }],
    timerFired := false, ctxCancelled := true,
    cancels := [("a", "h"), ("b", "h")], main := MainPc.returned "w2" none }

/-- Example schedule for peers a and b: a delivers and wins, the call returns and
closes the channel while b, whose request has returned, has not written yet. -/
def scheduleLateWriter : List Event :=
  [Event.respond 0 { err := none, Work := "w1" }, Event.write 0,
   Event.respond 1 { err := none, Work := "w2" }, Event.selectResult, Event.deferred]

/-- State reached by scheduleLateWriter. -/
def stateLateWriter : State :=
  { WorkPeers := ["a", "b"], hash := "h", difficulty := "d",
    resultChan := { cap := 2, buf := [], closed := true, sent := ["w1"] },
    tasks := [Task.finished { err := none, Work := "w1" },
              Task.responded { err := none, Work := "w2" }],
    timerFired := false, ctxCancelled := true,
    cancels := [("a", "h"), ("b", "h")], main := MainPc.returned "w1" none }

/-- Example schedule for peers a and b: a fails, b returns an empty work value,
the timer fires and the call takes the timeout branch. -/
def scheduleNoVote : List Event :=
  [Event.respond 0 { err := some "connection refused", Work := "" }, Event.write 0,
   Event.respond 1 { err := none, Work := "" }, Event.write 1,
   Event.timer, Event.selectTimeout, Event.deferred]

/-- State reached by scheduleNoVote. -/
def stateNoVote : State :=
  { WorkPeers := ["a", "b"], hash := "h", difficulty := "d",
    resultChan := { cap := 2, buf := [], closed := true, sent := [] },
    tasks := [Task.finished { err := some "connection refused", Work := "" },
              Task.finished { err := none, Work := "" }],
    timerFired := true, ctxCancelled := true,
    cancels := [("a", "h"), ("b", "h")],
    main := MainPc.returned "" (some "Unable to generate work") }

/-- State of a call with no peers once the timer has fired and the call returned. -/
def stateNoPeers : State :=
  { WorkPeers := [], hash := "h", difficulty := "d",
    resultChan := { cap := 0, buf := [], closed := true, sent := [] },
    tasks := [], timerFired := true, ctxCancelled := true, cancels := [],
    main := MainPc.returned "" (some "Unable to generate work") }

/-- Example schedule for peers a and b up to the firing of the timer: a fails and b
returns an empty work value, so nothing is delivered. -/
def scheduleNoVoteBeforeTimer : List Event :=
  [Event.respond 0 { err := some "connection refused", Work := "" }, Event.write 0,
   Event.respond 1 { err := none, Work := "" }, Event.write 1]

/-- State reached by scheduleNoVoteBeforeTimer: the call is blocked in its select. -/
def stateNoVoteBeforeTimer : State :=
  { WorkPeers := ["a", "b"], hash := "h", difficulty := "d",
    resultChan := { cap := 2, buf := [], closed := false, sent := [] },
    tasks := [Task.finished { err := some "connection refused", Work := "" },
              Task.finished { err := none, Work := "" }],
    timerFired := false, ctxCancelled := false, cancels := [], main := MainPc.selecting }

/-- Example schedule for three silent peers: the timer fires and the call takes the
timeout branch. -/
def scheduleSilentPeers : List Event :=
  [Event.timer, Event.selectTimeout, Event.deferred]

/-- State reached by scheduleSilentPeers for the peers p1, p2, p3 and the hash 9A3F. -/
def stateSilentPeers : State :=
  { WorkPeers := ["p1", "p2", "p3"], hash := "9A3F", difficulty := "fffffff8",
    resultChan := { cap := 3, buf := [], closed := true, sent := [] },
    tasks := [Task.requesting, Task.requesting, Task.requesting],
    timerFired := true, ctxCancelled := true,
    cancels := [("p1", "9A3F"), ("p2", "9A3F"), ("p3", "9A3F")],
    main := MainPc.returned "" (some "Unable to generate work") }

/-! ## Resumption of the blocked select -/

/-- The call sits in its select, the timer has fired and there is nothing to
receive: the timer case is the only case of the select that can proceed. -/
def State.timerCaseOnly (s : State) : Bool :=
  decide (s.main = MainPc.selecting) && s.timerFired && s.resultChan.buf.isEmpty

/-- Scheduling of the blocked select by the Go runtime. The call reaches the select
of line 42 with no case ready and blocks there; the runtime resumes a goroutine
blocked in a select with the case that became ready, chosen at the moment it became
ready. So when the timer fires while there is nothing to receive, the timeout branch
is the next thing that happens to the call, and a send that comes later cannot be
chosen in its place. Nothing else is constrained: with a value in the buffer the
choice among the ready cases stays free. -/
def runtimeAdmits (s : State) (ev : Event) : Bool :=
  !s.timerCaseOnly || decide (ev = Event.selectTimeout)

/-- Run a schedule as the runtime schedules it: run, with every event admitted by
runtimeAdmits in the state it happens in. -/
def runRuntime (s : State) : List Event → Option State
  | [] => some s
  | e :: es =>
    if runtimeAdmits s e then (step s e).bind (fun s1 => runRuntime s1 es) else none

/-- WorkGeneratePeers (lines 30-57) under a schedule of the runtime. -/
def WorkGeneratePeersRuntime (WorkPeers : List String) (hash difficulty : String)
    (schedule : List Event) : Option State :=
  runRuntime (initState WorkPeers hash difficulty) schedule

/-- The invariant of a call of WorkGeneratePeers. -/
structure Inv (s : State) : Prop where
  tasks_len : s.tasks.length = s.WorkPeers.length
  cap_eq : s.resultChan.cap = s.WorkPeers.length
  sent_pending : s.resultChan.sent.length + pending s.tasks ≤ s.resultChan.cap
  buf_le : s.resultChan.buf.length ≤ s.resultChan.sent.length
  sent_good : ∀ w ∈ s.resultChan.sent,
    w ≠ "" ∧ ∃ i : Nat, s.tasks[i]? = some (Task.finished { err := none, Work := w })
  no_crash : ∀ (i : Nat) v, s.tasks[i]? ≠ some (Task.crashed v)
  sel : s.main = MainPc.selecting →
    s.resultChan.closed = false ∧ s.cancels = [] ∧ s.resultChan.buf = s.resultChan.sent
  ret : ∀ w e, s.result = some (w, e) →
    s.cancels = s.WorkPeers.map (fun peer => WorkCancelAPIRequest peer s.hash) ∧
    (e = none → s.resultChan.sent.head? = some w) ∧
    (∀ m, e = some m → s.timerFired = true ∧ w = "" ∧ m = "Unable to generate work")
  closed_iff : s.resultChan.closed = true ↔ ∃ w e, s.main = MainPc.returned w e
  main_ok : ∀ v, s.main ≠ MainPc.crashed v

end Pow

namespace WalletLib

deriving instance DecidableEq for Except

/-! ## Wallet registry (libs/wallet) and the wallet command of apps/cli/main.go -/

/-- The validation errors the tests of libs/wallet compare against. -/
inductive WalletError where
  | ErrInvalidSeed
  | ErrInvalidWallet
  | ErrInvalidAccountCount
  | ErrInvalidPrivKey
  deriving DecidableEq

/-- Modelled from the spec: the Wallet entity of the data model (the ent schema is
not available); the fields are those wallet_test.go and main.go read. -/
structure Wallet where
  ID : Nat
  Seed : String
  Encrypted : Bool
  deriving DecidableEq

/-- Modelled from the spec: the Account entity of the data model (the ent schema is
not available); AccountIndex is none for an adhoc account. -/
structure Account where
  WalletID : Nat
  AccountIndex : Option Nat
  Address : String
  PrivateKey : Option String
  Work : Bool
  deriving DecidableEq

/-- Modelled from the spec: the storage behind NanoWallet.DB, as the rows of the two
tables. -/
structure Database where
  wallets : List Wallet
  accounts : List Account
  deriving DecidableEq

/-- The NanoWallet value of wallet_test.go lines 26-35: database and network flag. -/
structure NanoWallet where
  DB : Database
  Banano : Bool
  deriving DecidableEq

/-- A hexadecimal digit, by code point: 0-9, a-f, A-F. -/
def isHexDigit (c : Char) : Bool :=
  (48 ≤ c.toNat && c.toNat ≤ 57) || (97 ≤ c.toNat && c.toNat ≤ 102) ||
    (65 ≤ c.toNat && c.toNat ≤ 70)

/-- Modelled from the spec: utils.Validate64HexHash is called by main.go but its
source is not available; ValidateSeed accepts exactly 64 hexadecimal characters. -/
def Validate64HexHash (seed : String) : Bool :=
  seed.data.length == 64 && seed.data.all isHexDigit

/-- Modelled from the spec: the wallet ID is an opaque unique handle (its generation
is not available); here a number that no wallet row and no account row uses yet. -/
def freshID (db : Database) : Nat :=
  ((db.wallets.map (fun w => w.ID)) ++ (db.accounts.map (fun a => a.WalletID))).foldl max 0 + 1

/-- Modelled from the spec: the deterministic account persisted for a wallet at an
index, with no private key and Work true. The parameter deriveAddress stands for
DeriveKeypair followed by EncodeAddress (network flag, seed, index to address), whose
sources are not available. -/
def deterministicAccount (deriveAddress : Bool → String → Nat → String) (banano : Bool)
    (w : Wallet) (index : Nat) : Account :=
  { WalletID := w.ID, AccountIndex := some index,
    Address := deriveAddress banano w.Seed index, PrivateKey := none, Work := true }

/-- Modelled from the spec: NanoWallet.WalletCreate is exercised by wallet_test.go but
its source is not available. Fails ErrInvalidSeed if the seed fails validation; on
success persists a new wallet with Encrypted false and its account of index 0 with
Work true. Returns the result and the database afterwards. -/
def WalletCreate (deriveAddress : Bool → String → Nat → String) (nw : NanoWallet)
    (seed : String) : Except WalletError Wallet × Database :=
  if Validate64HexHash seed then
    let w : Wallet := { ID := freshID nw.DB, Seed := seed, Encrypted := false }
    (Except.ok w,
      { wallets := nw.DB.wallets ++ [w],
        accounts := nw.DB.accounts ++ [deterministicAccount deriveAddress nw.Banano w 0] })
  else (Except.error WalletError.ErrInvalidSeed, nw.DB)

/-- Modelled from the spec: max(existing deterministic indices for this wallet,
default 0). -/
def maxIndex (db : Database) (walletID : Nat) : Nat :=
  ((db.accounts.filter (fun a => a.WalletID == walletID)).filterMap
    (fun a => a.AccountIndex)).foldl max 0

/-- Modelled from the spec: NanoWallet.AccountsCreate is exercised by wallet_test.go
but its source is not available. Fails ErrInvalidWallet if the wallet is nil and
ErrInvalidAccountCount if count is not positive; otherwise allocates count
consecutive indices starting at max+1, derives and persists all of them, and returns
them by ascending index. -/
def AccountsCreate (deriveAddress : Bool → String → Nat → String) (nw : NanoWallet)
    (wallet : Option Wallet) (count : Int) : Except WalletError (List Account) × Database :=
  match wallet with
  | none => (Except.error WalletError.ErrInvalidWallet, nw.DB)
  | some w =>
    if count ≤ 0 then (Except.error WalletError.ErrInvalidAccountCount, nw.DB)
    else
      let first := maxIndex nw.DB w.ID + 1
      let accts := (List.range count.toNat).map
        (fun k => deterministicAccount deriveAddress nw.Banano w (first + k))
      (Except.ok accts, { nw.DB with accounts := nw.DB.accounts ++ accts })

/-- What one run of the wallet create command of the CLI did: the exit code, the
seeds WalletCreate was called with, and the database afterwards. -/
structure CliRun where
  exitCode : Nat
  walletCreateCalls : List String
  db : Database
  deriving DecidableEq

/-- The branch of main for wallet create (main.go lines 131-163). walletCreateSeed is
the value of the seed flag; generated is what utils.GenerateSeed(nil) returns when
the flag is empty. -/
def main_walletCreate (deriveAddress : Bool → String → Nat → String) (nw : NanoWallet)
    (walletCreateSeed : String) (generated : Except String String) : CliRun :=
  let seedOrErr : Except String String :=
    if walletCreateSeed = "" then generated else Except.ok walletCreateSeed
  match seedOrErr with
  | Except.error _ => { exitCode := 1, walletCreateCalls := [], db := nw.DB }
  | Except.ok seed =>
    if !Validate64HexHash seed then
      { exitCode := 1, walletCreateCalls := [], db := nw.DB }
    else
      match WalletCreate deriveAddress nw seed with
      | (Except.error _, db1) => { exitCode := 1, walletCreateCalls := [seed], db := db1 }
      | (Except.ok w, db1) =>
        match db1.accounts.find? (fun a => a.WalletID == w.ID) with
        | none => { exitCode := 1, walletCreateCalls := [seed], db := db1 }
        | some _ => { exitCode := 0, walletCreateCalls := [seed], db := db1 }

/-- Address function used in the example runs: the seed followed by one mark per
index step, under the network tag. -/
def exampleAddress (banano : Bool) (seed : String) (index : Nat) : String :=
  String.join ((if banano then "ban_" else "nano_") :: seed :: List.replicate index "+")

/-- The empty database with the nano network, as in wallet_test.go. -/
def emptyNano : NanoWallet :=
  { DB := { wallets := [], accounts := [] }, Banano := false }

/-- The seed of TestAccountsCreate. -/
def testSeed : String := "9f729340e07eee69abac049c2fdd4a3c4b50e4672a2fabdf1ae295f2b4f3040e"

/-- The wallet WalletCreate makes from testSeed on the empty database. -/
def testWallet : Wallet := { ID := 1, Seed := testSeed, Encrypted := false }

/-- The database after WalletCreate of testSeed on the empty database. -/
def testDB : Database :=
  { wallets := [testWallet],
    accounts := [deterministicAccount exampleAddress false testWallet 0] }

end WalletLib

namespace Pow

/-! ## Lists of tasks -/

theorem countP_set_add {α : Type} (p : α → Bool) (l : List α) (i : Nat) (a b : α)
    (h : l[i]? = some b) :
    (l.set i a).countP p + (if p b = true then 1 else 0)
      = l.countP p + (if p a = true then 1 else 0) := by
  induction l generalizing i with
  | nil => simp at h
  | cons x xs ih =>
    cases i with
    | zero =>
      simp at h
      subst h
      simp [List.countP_cons]
      omega
    | succ n =>
      simp at h
      have := ih n h
      simp [List.countP_cons]
      omega

theorem pending_set_same (l : List Task) (i : Nat) (a b : Task) (h : l[i]? = some b)
    (hb : b.isPending = true) (ha : a.isPending = true) :
    pending (l.set i a) = pending l := by
  have := countP_set_add Task.isPending l i a b h
  simp [hb, ha] at this
  exact this

theorem pending_set_done (l : List Task) (i : Nat) (a b : Task) (h : l[i]? = some b)
    (hb : b.isPending = true) (ha : a.isPending = false) :
    pending (l.set i a) + 1 = pending l := by
  have := countP_set_add Task.isPending l i a b h
  simp [hb, ha] at this
  exact this

theorem lt_length_of_getElem? {α : Type} {l : List α} {i : Nat} {b : α}
    (h : l[i]? = some b) : i < l.length := by
  by_contra hc
  have : l[i]? = none := List.getElem?_eq_none (by omega)
  simp [this] at h

theorem pending_pos_of_getElem? (l : List Task) (i : Nat) (b : Task) (h : l[i]? = some b)
    (hb : b.isPending = true) : 0 < pending l := by
  have hmem : b ∈ l := List.mem_iff_getElem?.mpr ⟨i, h⟩
  exact List.countP_pos_iff.mpr ⟨b, hmem, hb⟩


/-! ## One run of WorkGenerateAPIRequest -/

theorem WorkGenerateAPIRequest_eq (r : WorkResponse) (out : Chan) :
    WorkGenerateAPIRequest r out =
      if r.err = none ∧ r.Work ≠ "" ∧ out.closed = false then
        if out.buf.length < out.cap then
          Completion.done { out with buf := out.buf ++ [r.Work], sent := out.sent ++ [r.Work] }
        else Completion.blocked
      else Completion.done out := by
  unfold WorkGenerateAPIRequest WriteChannelSafe chanSend
  by_cases h1 : r.err = none ∧ r.Work ≠ ""
  · cases hc : out.closed
    · by_cases h3 : out.buf.length < out.cap
      · simp [h1, hc, h3]
      · simp [h1, hc, h3]
    · simp [h1, hc]
  · have h1b : ¬ (r.err = none ∧ r.Work ≠ "" ∧ out.closed = false) := fun h => h1 ⟨h.1, h.2.1⟩
    rw [if_neg h1, if_neg h1b]

theorem WorkGenerateAPIRequest_done_of_free (r : WorkResponse) (out : Chan)
    (hfree : out.buf.length < out.cap) :
    ∃ out1, WorkGenerateAPIRequest r out = Completion.done out1 := by
  rw [WorkGenerateAPIRequest_eq, if_pos hfree]
  by_cases hg : r.err = none ∧ r.Work ≠ "" ∧ out.closed = false
  · rw [if_pos hg]
    exact ⟨_, rfl⟩
  · rw [if_neg hg]
    exact ⟨_, rfl⟩

theorem WriteChannelSafe_eq (out : Chan) (msg : String) :
    WriteChannelSafe out msg =
      if out.closed = true then Completion.done (out, some "send on closed channel")
      else if out.buf.length < out.cap then
        Completion.done ({ out with buf := out.buf ++ [msg], sent := out.sent ++ [msg] }, none)
      else Completion.blocked := by
  unfold WriteChannelSafe chanSend
  cases hc : out.closed
  · by_cases h3 : out.buf.length < out.cap
    · simp [h3, WriteChannelSafe_deferred]
    · simp [h3]
  · simp [WriteChannelSafe_deferred]

/-! ## The invariant -/

theorem Inv_initState (peers : List String) (hash difficulty : String) :
    Inv (initState peers hash difficulty) where
  tasks_len := by simp [initState]
  cap_eq := rfl
  sent_pending := by
    have := List.countP_le_length Task.isPending
      (l := peers.map (fun _ => Task.requesting))
    simpa [initState, makeChan, pending] using this
  buf_le := by simp [initState, makeChan]
  sent_good := by simp [initState, makeChan]
  no_crash := by
    intro i v h
    simp only [initState, List.getElem?_map] at h
    cases hp : peers[i]? <;> simp [hp] at h
  sel := by intro _; simp [initState, makeChan]
  ret := by intro w e h; simp [initState, State.result] at h
  closed_iff := by simp [initState, makeChan]
  main_ok := by intro v; simp [initState]

theorem Inv_respond {s s1 : State} {i : Nat} {r : WorkResponse} (hI : Inv s)
    (h : step s (Event.respond i r) = some s1) : Inv s1 := by
  simp only [step] at h
  split at h
  · next ht =>
    injection h with h
    subst h
    refine ⟨?_, hI.cap_eq, ?_, hI.buf_le, ?_, ?_, hI.sel, hI.ret, hI.closed_iff, hI.main_ok⟩
    · simpa using hI.tasks_len
    · have := pending_set_same s.tasks i (Task.responded r) Task.requesting ht rfl rfl
      simpa [this] using hI.sent_pending
    · intro w hw
      obtain ⟨hne, j, hj⟩ := hI.sent_good w hw
      refine ⟨hne, j, ?_⟩
      have hij : i ≠ j := by
        intro hij
        subst hij
        rw [ht] at hj
        cases hj
      simpa [List.getElem?_set_ne hij] using hj
    · intro j v hj
      simp only [List.getElem?_set] at hj
      split at hj
      · split at hj <;> cases hj
      · exact hI.no_crash j v hj
  · cases h

theorem Inv_write {s s1 : State} {i : Nat} (hI : Inv s)
    (h : step s (Event.write i) = some s1) : Inv s1 := by
  simp only [step] at h
  split at h
  · next r ht =>
    rw [WorkGenerateAPIRequest_eq] at h
    have hlen := lt_length_of_getElem? ht
    have hpd := pending_set_done s.tasks i (Task.finished r) (Task.responded r) ht rfl rfl
    have hgood_old : ∀ w ∈ s.resultChan.sent, w ≠ "" ∧
        ∃ j : Nat, (s.tasks.set i (Task.finished r))[j]? =
          some (Task.finished { err := none, Work := w }) := by
      intro w hw
      obtain ⟨hne, j, hj⟩ := hI.sent_good w hw
      refine ⟨hne, j, ?_⟩
      have hij : i ≠ j := by
        intro hij
        subst hij
        rw [ht] at hj
        cases hj
      simpa [List.getElem?_set_ne hij] using hj
    have hcrash : ∀ (j : Nat) v, (s.tasks.set i (Task.finished r))[j]? ≠
        some (Task.crashed v) := by
      intro j v hj
      simp only [List.getElem?_set] at hj
      split at hj
      · simp [hlen] at hj
      · exact hI.no_crash j v hj
    by_cases hg : r.err = none ∧ r.Work ≠ "" ∧ s.resultChan.closed = false
    · rw [if_pos hg] at h
      by_cases hfree : s.resultChan.buf.length < s.resultChan.cap
      · rw [if_pos hfree] at h
        simp only at h
        injection h with h
        subst h
        refine ⟨?_, hI.cap_eq, ?_, ?_, ?_, hcrash, ?_, ?_, hI.closed_iff, hI.main_ok⟩
        · simpa using hI.tasks_len
        · have := hI.sent_pending
          simp only [List.length_append, List.length_singleton]
          omega
        · have := hI.buf_le
          simp only [List.length_append, List.length_singleton]
          omega
        · intro w hw
          simp only [List.mem_append, List.mem_singleton] at hw
          rcases hw with hw | hw
          · exact hgood_old w hw
          · subst hw
            refine ⟨hg.2.1, i, ?_⟩
            have hr : r = { err := none, Work := r.Work } := by
              cases r with
              | mk e w => simp at hg; simp [hg.1]
            rw [← hr]
            simp [hlen]
        · intro hm
          obtain ⟨h1, h2, h3⟩ := hI.sel hm
          exact ⟨h1, h2, by simp [h3]⟩
        · intro w e hr
          obtain ⟨h1, h2, h3⟩ := hI.ret w e hr
          refine ⟨h1, ?_, h3⟩
          intro he
          have := h2 he
          simp [List.head?_append, this]
      · rw [if_neg hfree] at h
        cases h
    · rw [if_neg hg] at h
      simp only at h
      injection h with h
      subst h
      refine ⟨?_, hI.cap_eq, ?_, hI.buf_le, hgood_old, hcrash, hI.sel, hI.ret,
        hI.closed_iff, hI.main_ok⟩
      · simpa using hI.tasks_len
      · have := hI.sent_pending
        show s.resultChan.sent.length + pending (s.tasks.set i (Task.finished r)) ≤
          s.resultChan.cap
        omega
  · cases h


theorem Inv_timer {s s1 : State} (hI : Inv s)
    (h : step s Event.timer = some s1) : Inv s1 := by
  simp only [step] at h
  split at h
  · cases h
  · injection h with h
    subst h
    refine ⟨hI.tasks_len, hI.cap_eq, hI.sent_pending, hI.buf_le, hI.sent_good, hI.no_crash,
      hI.sel, ?_, hI.closed_iff, hI.main_ok⟩
    intro w e hr
    obtain ⟨h1, h2, h3⟩ := hI.ret w e hr
    exact ⟨h1, h2, fun m hm => ⟨rfl, (h3 m hm).2⟩⟩

theorem Inv_selectResult {s s1 : State} (hI : Inv s)
    (h : step s Event.selectResult = some s1) : Inv s1 := by
  simp only [step] at h
  split at h
  · next hm =>
    obtain ⟨hopen, hcan, hbuf⟩ := hI.sel hm
    unfold chanRecv at h
    cases hb : s.resultChan.buf with
    | nil =>
      rw [hb] at h
      simp [hopen] at h
    | cons v rest =>
      rw [hb] at h
      simp only at h
      injection h with h
      subst h
      have hsent : s.resultChan.sent = v :: rest := by rw [← hbuf, hb]
      refine ⟨hI.tasks_len, hI.cap_eq, hI.sent_pending, ?_, hI.sent_good, hI.no_crash,
        ?_, ?_, ?_, ?_⟩
      · show rest.length ≤ s.resultChan.sent.length
        rw [hsent]
        simp
      · intro h
        cases h
      · intro w e hr
        simp only [State.result] at hr
        injection hr with hr
        injection hr with hw he
        subst hw
        subst he
        refine ⟨by simp [launchCancels, hcan], ?_, ?_⟩
        · intro _
          show s.resultChan.sent.head? = some v
          rw [hsent]
          rfl
        · intro m hm2
          cases hm2
      · constructor
        · intro hc
          have : s.resultChan.closed = true := hc
          rw [hopen] at this
          cases this
        · rintro ⟨w, e, hw⟩
          cases hw
      · intro v2 hv
        cases hv
  · cases h

theorem Inv_selectTimeout {s s1 : State} (hI : Inv s)
    (h : step s Event.selectTimeout = some s1) : Inv s1 := by
  simp only [step] at h
  split at h
  · next hm =>
    obtain ⟨hopen, hcan, hbuf⟩ := hI.sel hm
    split at h
    · next hfired =>
      injection h with h
      subst h
      refine ⟨hI.tasks_len, hI.cap_eq, hI.sent_pending, hI.buf_le, hI.sent_good, hI.no_crash,
        ?_, ?_, ?_, ?_⟩
      · intro h
        cases h
      · intro w e hr
        simp only [State.result] at hr
        injection hr with hr
        injection hr with hw he
        subst hw
        subst he
        refine ⟨by simp [launchCancels, hcan], ?_, ?_⟩
        · intro hn
          cases hn
        · intro m hm2
          injection hm2 with hm2
          exact ⟨hfired, rfl, hm2.symm⟩
      · constructor
        · intro hc
          have : s.resultChan.closed = true := hc
          rw [hopen] at this
          cases this
        · rintro ⟨w, e, hw⟩
          cases hw
      · intro v2 hv
        cases hv
    · cases h
  · cases h

theorem Inv_deferred {s s1 : State} (hI : Inv s)
    (h : step s Event.deferred = some s1) : Inv s1 := by
  simp only [step] at h
  split at h
  · next w e hm =>
    have hopen : s.resultChan.closed = false := by
      cases hc : s.resultChan.closed with
      | false => rfl
      | true =>
        obtain ⟨w2, e2, h2⟩ := hI.closed_iff.mp hc
        rw [hm] at h2
        cases h2
    have hres : s.result = some (w, e) := by simp [State.result, hm]
    simp only [chanClose, hopen] at h
    simp only [Bool.false_eq_true, if_false] at h
    injection h with h
    subst h
    refine ⟨hI.tasks_len, hI.cap_eq, hI.sent_pending, hI.buf_le, hI.sent_good, hI.no_crash,
      ?_, ?_, ?_, ?_⟩
    · intro h
      cases h
    · intro w2 e2 hr
      simp only [State.result] at hr
      injection hr with hr
      injection hr with hw he
      subst hw
      subst he
      exact hI.ret _ _ hres
    · constructor
      · intro _
        exact ⟨w, e, rfl⟩
      · intro _
        rfl
    · intro v2 hv
      cases hv
  · cases h

theorem Inv_step {s s1 : State} {e : Event} (hI : Inv s) (h : step s e = some s1) :
    Inv s1 := by
  cases e with
  | respond i r => exact Inv_respond hI h
  | write i => exact Inv_write hI h
  | timer => exact Inv_timer hI h
  | selectResult => exact Inv_selectResult hI h
  | selectTimeout => exact Inv_selectTimeout hI h
  | deferred => exact Inv_deferred hI h

theorem Inv_run {s s1 : State} {es : List Event} (hI : Inv s) (h : run s es = some s1) :
    Inv s1 := by
  induction es generalizing s with
  | nil =>
    simp only [run] at h
    injection h with h
    subst h
    exact hI
  | cons e es ih =>
    simp only [run] at h
    cases hs : step s e with
    | none => simp [hs] at h
    | some s2 =>
      rw [hs] at h
      exact ih (Inv_step hI hs) h

theorem Inv_WorkGeneratePeers {peers : List String} {hash difficulty : String}
    {schedule : List Event} {s : State}
    (h : WorkGeneratePeers peers hash difficulty schedule = some s) : Inv s :=
  Inv_run (Inv_initState peers hash difficulty) h

/-- The peer list, hash and difficulty of a call never change. -/
theorem step_static {s s1 : State} {e : Event} (h : step s e = some s1) :
    s1.WorkPeers = s.WorkPeers ∧ s1.hash = s.hash ∧ s1.difficulty = s.difficulty := by
  cases e <;> simp only [step] at h <;> (repeat (split at h)) <;>
    first
    | (injection h with h; subst h; exact ⟨rfl, rfl, rfl⟩)
    | cases h

theorem run_static {s s1 : State} {es : List Event} (h : run s es = some s1) :
    s1.WorkPeers = s.WorkPeers ∧ s1.hash = s.hash ∧ s1.difficulty = s.difficulty := by
  induction es generalizing s with
  | nil =>
    simp only [run] at h
    injection h with h
    subst h
    exact ⟨rfl, rfl, rfl⟩
  | cons e es ih =>
    simp only [run] at h
    cases hs : step s e with
    | none => simp [hs] at h
    | some s2 =>
      rw [hs] at h
      obtain ⟨a, b, c⟩ := ih h
      obtain ⟨a2, b2, c2⟩ := step_static hs
      exact ⟨a.trans a2, b.trans b2, c.trans c2⟩


/-! ## The race: claims about WorkGeneratePeers -/

/-- C1: whenever WorkGeneratePeers returns a nil error, the returned work string is
non-empty, it is the first value ever delivered to the result channel, and it is the
Work of a finished peer task whose work_generate request returned no error. -/
theorem WorkGeneratePeers_returns_first_delivered (peers : List String)
    (hash difficulty : String) (schedule : List Event) (s : State) (w : String)
    (h : WorkGeneratePeers peers hash difficulty schedule = some s)
    (hr : s.result = some (w, none)) :
    w ≠ "" ∧ s.resultChan.sent.head? = some w ∧
      ∃ i : Nat, s.tasks[i]? = some (Task.finished { err := none, Work := w }) := by
  have hI := Inv_WorkGeneratePeers h
  have hhead := (hI.ret w none hr).2.1 rfl
  have hmem : w ∈ s.resultChan.sent := List.mem_of_mem_head? hhead
  exact ⟨(hI.sent_good w hmem).1, hhead, (hI.sent_good w hmem).2⟩

/-- Witness for C1: two peers answer, the second one delivers first and wins. -/
theorem WorkGeneratePeers_returns_first_delivered_witness :
    WorkGeneratePeers ["a", "b"] "h" "d" scheduleBothAnswer = some stateBothAnswer ∧
      stateBothAnswer.result = some ("w2", none) ∧
      ("w2" ≠ "" ∧ stateBothAnswer.resultChan.sent.head? = some "w2" ∧
        ∃ i : Nat, stateBothAnswer.tasks[i]? =
          some (Task.finished { err := none, Work := "w2" })) :=
  ⟨by decide, by decide,
    WorkGeneratePeers_returns_first_delivered ["a", "b"] "h" "d" scheduleBothAnswer
      stateBothAnswer "w2" (by decide) (by decide)⟩


/-- Only the timeout branch makes the call return an error. -/
theorem error_only_from_timeout {s s1 : State} {ev : Event} {w m : String}
    (hstep : step s ev = some s1) (hnone : s.result = none)
    (hr : s1.result = some (w, some m)) :
    ev = Event.selectTimeout ∧ s.timerFired = true := by
  cases ev with
  | respond i r =>
    simp only [step] at hstep
    split at hstep
    · injection hstep with hstep
      subst hstep
      rw [State.result] at hr hnone
      simp only at hr
      rw [hnone] at hr
      cases hr
    · cases hstep
  | write i =>
    simp only [step] at hstep
    split at hstep
    · split at hstep
      · injection hstep with hstep
        subst hstep
        rw [State.result] at hr hnone
        simp only at hr
        rw [hnone] at hr
        cases hr
      · injection hstep with hstep
        subst hstep
        rw [State.result] at hr hnone
        simp only at hr
        rw [hnone] at hr
        cases hr
      · cases hstep
    · cases hstep
  | timer =>
    simp only [step] at hstep
    split at hstep
    · cases hstep
    · injection hstep with hstep
      subst hstep
      rw [State.result] at hr hnone
      simp only at hr
      rw [hnone] at hr
      cases hr
  | selectResult =>
    simp only [step] at hstep
    split at hstep
    · split at hstep
      · injection hstep with hstep
        subst hstep
        simp [State.result] at hr
      · injection hstep with hstep
        subst hstep
        simp [State.result] at hr
      · injection hstep with hstep
        subst hstep
        simp [State.result] at hr
      · cases hstep
    · cases hstep
  | selectTimeout =>
    simp only [step] at hstep
    split at hstep
    · split at hstep
      · next hf => exact ⟨rfl, hf⟩
      · cases hstep
    · cases hstep
  | deferred =>
    simp only [step] at hstep
    split at hstep
    · next w2 e2 hm =>
      simp [State.result, hm] at hnone
    · cases hstep

/-- A run of the runtime is a run. -/
theorem runRuntime_run {s s1 : State} {es : List Event} (h : runRuntime s es = some s1) :
    run s es = some s1 := by
  induction es generalizing s with
  | nil => exact h
  | cons e es ih =>
    simp only [runRuntime] at h
    split at h
    · cases hs : step s e with
      | none => simp [hs] at h
      | some s2 =>
        rw [hs] at h
        simp only [run, hs]
        exact ih h
    · cases h

/-- Once the call has its result, no event changes it. -/
theorem result_stable_step {s s1 : State} {ev : Event} {r : String × Option String}
    (hI : Inv s) (h : step s ev = some s1) (hr : s.result = some r) :
    s1.result = some r := by
  cases ev with
  | respond i r2 =>
    simp only [step] at h
    split at h
    · injection h with h
      subst h
      exact hr
    · cases h
  | write i =>
    simp only [step] at h
    split at h
    · split at h
      · injection h with h
        subst h
        exact hr
      · injection h with h
        subst h
        exact hr
      · cases h
    · cases h
  | timer =>
    simp only [step] at h
    split at h
    · cases h
    · injection h with h
      subst h
      exact hr
  | selectResult =>
    simp only [step] at h
    split at h
    · next hm => simp [State.result, hm] at hr
    · cases h
  | selectTimeout =>
    simp only [step] at h
    split at h
    · next hm => simp [State.result, hm] at hr
    · cases h
  | deferred =>
    simp only [step] at h
    split at h
    · next w e hm =>
      have hopen : s.resultChan.closed = false := by
        cases hc : s.resultChan.closed with
        | false => rfl
        | true =>
          obtain ⟨w2, e2, h2⟩ := hI.closed_iff.mp hc
          rw [hm] at h2
          cases h2
      simp only [chanClose, hopen, Bool.false_eq_true, if_false] at h
      injection h with h
      subst h
      simpa [State.result, hm] using hr
    · cases h

theorem result_stable_run {s s1 : State} {es : List Event} {r : String × Option String}
    (hI : Inv s) (h : run s es = some s1) (hr : s.result = some r) :
    s1.result = some r := by
  induction es generalizing s with
  | nil =>
    simp only [run] at h
    injection h with h
    subst h
    exact hr
  | cons e es ih =>
    simp only [run] at h
    cases hs : step s e with
    | none => simp [hs] at h
    | some s2 =>
      rw [hs] at h
      exact ih (Inv_step hI hs) h (result_stable_step hI hs hr)

/-- A call in which nothing has been delivered and the timer has not fired is
blocked in its select with an empty channel. -/
theorem blocked_of_nothing_delivered {s : State} (hI : Inv s)
    (hsent : s.resultChan.sent = []) (hf : s.timerFired = false) :
    s.main = MainPc.selecting ∧ s.resultChan.buf = [] ∧ s.resultChan.closed = false := by
  have hsel : s.main = MainPc.selecting := by
    cases hm : s.main with
    | selecting => rfl
    | returning w e =>
      have hr : s.result = some (w, e) := by simp [State.result, hm]
      obtain ⟨_, h2, h3⟩ := hI.ret w e hr
      cases e with
      | none =>
        have := h2 rfl
        rw [hsent] at this
        cases this
      | some m =>
        have := (h3 m rfl).1
        rw [hf] at this
        cases this
    | returned w e =>
      have hr : s.result = some (w, e) := by simp [State.result, hm]
      obtain ⟨_, h2, h3⟩ := hI.ret w e hr
      cases e with
      | none =>
        have := h2 rfl
        rw [hsent] at this
        cases this
      | some m =>
        have := (h3 m rfl).1
        rw [hf] at this
        cases this
    | crashed v => exact absurd hm (hI.main_ok v)
  obtain ⟨hopen, _, hbuf⟩ := hI.sel hsel
  exact ⟨hsel, by rw [hbuf, hsent], hopen⟩

/-- C2: take any run of the runtime in which no peer has delivered a result when the
timer fires. Then the call is blocked in its select with an empty channel at that
moment; whatever happens next is the timeout branch; in every later state the call
has the empty work string with the error "Unable to generate work" as its result;
and the run in which it returns exists. Moreover, over every schedule at all (the
select choosing freely among its ready cases): with nothing delivered the select
cannot take the result branch and cannot take the timeout branch before the timer
has fired; an error result implies that the timer has fired; and only the timeout
branch produces an error result. -/
theorem WorkGeneratePeers_timeout (peers : List String) (hash difficulty : String)
    (before after : List Event) (s0 s : State)
    (h0 : WorkGeneratePeersRuntime peers hash difficulty before = some s0)
    (hnone : s0.resultChan.sent = [])
    (hrun : runRuntime s0 (Event.timer :: after) = some s) :
    (s0.main = MainPc.selecting ∧ s0.timerFired = false ∧ s0.resultChan.buf = []) ∧
    (∀ ev rest, after = ev :: rest → ev = Event.selectTimeout) ∧
    (after ≠ [] → s.result = some ("", some "Unable to generate work") ∧
      s.timerFired = true) ∧
    (∃ s2, runRuntime s0 [Event.timer, Event.selectTimeout, Event.deferred] = some s2 ∧
      s2.main = MainPc.returned "" (some "Unable to generate work")) ∧
    (∀ (schedule : List Event) (t : State),
      WorkGeneratePeers peers hash difficulty schedule = some t →
      (t.main = MainPc.selecting → t.resultChan.sent = [] →
        step t Event.selectResult = none ∧
        (t.timerFired = false → step t Event.selectTimeout = none)) ∧
      (∀ w m, t.result = some (w, some m) →
        t.timerFired = true ∧ w = "" ∧ m = "Unable to generate work") ∧
      (∀ ev t1 w m, step t ev = some t1 → t.result = none →
        t1.result = some (w, some m) → ev = Event.selectTimeout ∧ t.timerFired = true)) := by
  have hI0 : Inv s0 := Inv_run (Inv_initState peers hash difficulty) (runRuntime_run h0)
  have hf : s0.timerFired = false := by
    cases hfired : s0.timerFired with
    | false => rfl
    | true =>
      simp only [runRuntime, step, hfired] at hrun
      split at hrun
      · simp at hrun
      · cases hrun
  obtain ⟨hsel, hbuf, hopen⟩ := blocked_of_nothing_delivered hI0 hnone hf
  have hadm0 : runtimeAdmits s0 Event.timer = true := by
    simp [runtimeAdmits, State.timerCaseOnly, hf]
  have hstepT : step s0 Event.timer = some { s0 with timerFired := true } := by
    simp [step, hf]
  have hITimer : Inv { s0 with timerFired := true } := Inv_step hI0 hstepT
  have honly : State.timerCaseOnly { s0 with timerFired := true } = true := by
    simp [State.timerCaseOnly, hsel, hbuf]
  have hstepS : step { s0 with timerFired := true } Event.selectTimeout =
      some { s0 with timerFired := true, cancels := launchCancels s0,
                     main := MainPc.returning "" (some "Unable to generate work") } := by
    simp [step, hsel, launchCancels]
  have hIS := Inv_step hITimer hstepS
  simp only [runRuntime, hadm0, if_true, hstepT, Option.some_bind] at hrun
  refine ⟨⟨hsel, hf, hbuf⟩, ?_, ?_, ?_, ?_⟩
  · intro ev rest hafter
    subst hafter
    simp only [runRuntime] at hrun
    split at hrun
    · next hadm =>
      simpa [runtimeAdmits, honly] using hadm
    · cases hrun
  · intro hne
    cases after with
    | nil => exact absurd rfl hne
    | cons ev rest =>
      simp only [runRuntime] at hrun
      split at hrun
      · next hadm =>
        have hev : ev = Event.selectTimeout := by
          simpa [runtimeAdmits, honly] using hadm
        subst hev
        rw [hstepS] at hrun
        simp only [Option.some_bind] at hrun
        have hrest := runRuntime_run hrun
        have hres := result_stable_run hIS hrest
          (r := ("", some "Unable to generate work")) (by simp [State.result])
        have hIs := Inv_run hIS hrest
        exact ⟨hres, ((hIs.ret _ _ hres).2.2 _ rfl).1⟩
      · cases hrun
  · refine ⟨{ s0 with resultChan := { s0.resultChan with closed := true },
                      timerFired := true, ctxCancelled := true,
                      cancels := launchCancels s0,
                      main := MainPc.returned "" (some "Unable to generate work") }, ?_, rfl⟩
    simp [runRuntime, runtimeAdmits, State.timerCaseOnly, step, hsel, hf, hbuf, chanClose,
      hopen, launchCancels]
  · intro schedule t ht
    have hI := Inv_WorkGeneratePeers ht
    refine ⟨?_, ?_, ?_⟩
    · intro hm hsent
      obtain ⟨hopen2, _, hbuf2⟩ := hI.sel hm
      constructor
      · simp [step, hm, chanRecv, hbuf2, hsent, hopen2]
      · intro hf2
        simp [step, hm, hf2]
    · intro w m hr
      exact (hI.ret w (some m) hr).2.2 m rfl
    · intro ev t1 w m hstep hnone2 hr
      exact error_only_from_timeout hstep hnone2 hr

/-- Witness for C2: peer a fails and peer b returns an empty work value, nothing
has been delivered when the timer fires, and the call returns the timeout error. -/
theorem WorkGeneratePeers_timeout_witness :
    WorkGeneratePeersRuntime ["a", "b"] "h" "d" scheduleNoVoteBeforeTimer
        = some stateNoVoteBeforeTimer ∧
      stateNoVoteBeforeTimer.resultChan.sent = [] ∧
      runRuntime stateNoVoteBeforeTimer [Event.timer, Event.selectTimeout, Event.deferred]
        = some stateNoVote ∧
      (stateNoVoteBeforeTimer.main = MainPc.selecting ∧
        stateNoVoteBeforeTimer.timerFired = false ∧
        stateNoVoteBeforeTimer.resultChan.buf = []) ∧
      (∀ ev rest, [Event.selectTimeout, Event.deferred] = ev :: rest →
        ev = Event.selectTimeout) ∧
      (stateNoVote.result = some ("", some "Unable to generate work") ∧
        stateNoVote.timerFired = true) ∧
      (∃ s2, runRuntime stateNoVoteBeforeTimer
          [Event.timer, Event.selectTimeout, Event.deferred] = some s2 ∧
        s2.main = MainPc.returned "" (some "Unable to generate work")) :=
  ⟨by decide, by decide, by decide,
    (WorkGeneratePeers_timeout ["a", "b"] "h" "d" scheduleNoVoteBeforeTimer
      [Event.selectTimeout, Event.deferred] stateNoVoteBeforeTimer stateNoVote
      (by decide) (by decide) (by decide)).1,
    (WorkGeneratePeers_timeout ["a", "b"] "h" "d" scheduleNoVoteBeforeTimer
      [Event.selectTimeout, Event.deferred] stateNoVoteBeforeTimer stateNoVote
      (by decide) (by decide) (by decide)).2.1,
    (WorkGeneratePeers_timeout ["a", "b"] "h" "d" scheduleNoVoteBeforeTimer
      [Event.selectTimeout, Event.deferred] stateNoVoteBeforeTimer stateNoVote
      (by decide) (by decide) (by decide)).2.2.1 (by decide),
    (WorkGeneratePeers_timeout ["a", "b"] "h" "d" scheduleNoVoteBeforeTimer
      [Event.selectTimeout, Event.deferred] stateNoVoteBeforeTimer stateNoVote
      (by decide) (by decide) (by decide)).2.2.2.1⟩

/-- C3: once WorkGeneratePeers has a result, on the result branch as on the timeout
branch, the work_cancel requests launched are exactly one per entry of WorkPeers, in
the order of WorkPeers, the i-th one made of the i-th entry and the hash passed to
WorkGeneratePeers; no peer is left out, the winner included, and before the select
has decided no work_cancel request has been launched. -/
theorem WorkGeneratePeers_cancels_every_peer (peers : List String)
    (hash difficulty : String) (schedule : List Event) (s : State) (w : String)
    (e : Option String)
    (h : WorkGeneratePeers peers hash difficulty schedule = some s)
    (hr : s.result = some (w, e)) :
    s.cancels = peers.map (fun peer => (peer, hash)) ∧
      s.cancels.length = peers.length ∧
      (∀ peer ∈ peers, (peer, hash) ∈ s.cancels) ∧
      (∀ c ∈ s.cancels, c.2 = hash ∧ c.1 ∈ peers) ∧
      (∀ (i : Nat) (peer : String), peers[i]? = some peer →
        s.cancels[i]? = some (peer, hash)) ∧
      (∀ (schedule0 : List Event) (t : State),
        WorkGeneratePeers peers hash difficulty schedule0 = some t →
        t.main = MainPc.selecting → t.cancels = []) := by
  have hI := Inv_WorkGeneratePeers h
  obtain ⟨hp, hh, _⟩ := run_static h
  have hc := (hI.ret w e hr).1
  rw [hp, hh] at hc
  simp only [initState, WorkCancelAPIRequest] at hc
  refine ⟨hc, by rw [hc]; simp, ?_, ?_, ?_, ?_⟩
  · intro peer hmem
    rw [hc]
    exact List.mem_map.mpr ⟨peer, hmem, rfl⟩
  · intro c hmem
    rw [hc] at hmem
    obtain ⟨peer, hpeer, hpc⟩ := List.mem_map.mp hmem
    subst hpc
    exact ⟨rfl, hpeer⟩
  · intro i peer hpeer
    rw [hc, List.getElem?_map, hpeer]
    rfl
  · intro schedule0 t ht hm
    exact ((Inv_WorkGeneratePeers ht).sel hm).2.1

/-- Witness for C3: in the run scheduleLateWriter peer a wins and is cancelled like
peer b, with the hash h of that call; in the run scheduleSilentPeers the timeout
branch cancels p1, p2 and p3 with the hash 9A3F of that call. -/
theorem WorkGeneratePeers_cancels_every_peer_witness :
    (WorkGeneratePeers ["a", "b"] "h" "d" scheduleLateWriter = some stateLateWriter ∧
      stateLateWriter.result = some ("w1", none) ∧
      stateLateWriter.cancels = [("a", "h"), ("b", "h")]) ∧
    (WorkGeneratePeers ["p1", "p2", "p3"] "9A3F" "fffffff8" scheduleSilentPeers
        = some stateSilentPeers ∧
      stateSilentPeers.result = some ("", some "Unable to generate work") ∧
      stateSilentPeers.cancels = [("p1", "9A3F"), ("p2", "9A3F"), ("p3", "9A3F")]) :=
  ⟨⟨by decide, by decide,
    (WorkGeneratePeers_cancels_every_peer ["a", "b"] "h" "d" scheduleLateWriter
      stateLateWriter "w1" none (by decide) (by decide)).1⟩,
   ⟨by decide, by decide,
    (WorkGeneratePeers_cancels_every_peer ["p1", "p2", "p3"] "9A3F" "fffffff8"
      scheduleSilentPeers stateSilentPeers "" (some "Unable to generate work")
      (by decide) (by decide)).1⟩⟩

/-- Counterexample to C4 as stated: in the run scheduleLateWriter the request of
peer b returned no error and a non-empty Work, yet WorkGenerateAPIRequest delivers
nothing, because the call has returned and closed the channel. -/
theorem WorkGenerateAPIRequest_good_response_not_delivered :
    WorkGeneratePeers ["a", "b"] "h" "d" scheduleLateWriter = some stateLateWriter ∧
      stateLateWriter.tasks[1]? = some (Task.responded { err := none, Work := "w2" }) ∧
      ¬ (Delivers { err := none, Work := "w2" } stateLateWriter.resultChan = true ↔
          ((({ err := none, Work := "w2" } : WorkResponse).err = none) ∧
            ({ err := none, Work := "w2" } : WorkResponse).Work ≠ "")) := by
  decide

/-- C4, amended: in every reachable state of a race, a peer task whose request has
returned runs to completion, and it delivers its Work to the result channel if and
only if the request returned no error and a non-empty Work and the channel is not
yet closed; otherwise the channel is left as it is. In both cases the control point
of WorkGeneratePeers, its timer and the other tasks are untouched. -/
theorem WorkGenerateAPIRequest_delivers_iff (peers : List String)
    (hash difficulty : String) (schedule : List Event) (s : State) (i : Nat)
    (r : WorkResponse)
    (h : WorkGeneratePeers peers hash difficulty schedule = some s)
    (ht : s.tasks[i]? = some (Task.responded r)) :
    (Delivers r s.resultChan = true ↔
      (r.err = none ∧ r.Work ≠ "" ∧ s.resultChan.closed = false)) ∧
    (¬ (r.err = none ∧ r.Work ≠ "" ∧ s.resultChan.closed = false) →
      WorkGenerateAPIRequest r s.resultChan = Completion.done s.resultChan) ∧
    ∃ s1, step s (Event.write i) = some s1 ∧
      (s1.resultChan.sent = s.resultChan.sent ++ [r.Work] ↔
        (r.err = none ∧ r.Work ≠ "" ∧ s.resultChan.closed = false)) ∧
      (¬ (r.err = none ∧ r.Work ≠ "" ∧ s.resultChan.closed = false) →
        s1.resultChan = s.resultChan) ∧
      s1.main = s.main ∧ s1.timerFired = s.timerFired ∧ s1.cancels = s.cancels ∧
      s1.tasks = s.tasks.set i (Task.finished r) := by
  have hI := Inv_WorkGeneratePeers h
  have hpos := pending_pos_of_getElem? s.tasks i (Task.responded r) ht rfl
  have hfree : s.resultChan.buf.length < s.resultChan.cap := by
    have h1 := hI.sent_pending
    have h2 := hI.buf_le
    omega
  have heq := WorkGenerateAPIRequest_eq r s.resultChan
  by_cases hg : r.err = none ∧ r.Work ≠ "" ∧ s.resultChan.closed = false
  · rw [if_pos hg, if_pos hfree] at heq
    refine ⟨?_, fun hn => absurd hg hn, ?_⟩
    · simp [Delivers, heq, hg]
    · refine ⟨{ s with tasks := s.tasks.set i (Task.finished r),
                       resultChan := { s.resultChan with
                         buf := s.resultChan.buf ++ [r.Work],
                         sent := s.resultChan.sent ++ [r.Work] } }, ?_, ?_, ?_,
        rfl, rfl, rfl, rfl⟩
      · simp [step, ht, heq]
      · simp [hg]
      · intro hn
        exact absurd hg hn
  · rw [if_neg hg] at heq
    refine ⟨?_, fun _ => heq, ?_⟩
    · simp [Delivers, heq, hg]
    · refine ⟨{ s with tasks := s.tasks.set i (Task.finished r) }, ?_, ?_, ?_,
        rfl, rfl, rfl, rfl⟩
      · simp [step, ht, heq]
      · simp [hg]
      · intro _
        rfl

/-- Witness for C4: the late writer of scheduleLateWriter delivers nothing. -/
theorem WorkGenerateAPIRequest_delivers_iff_witness :
    WorkGeneratePeers ["a", "b"] "h" "d" scheduleLateWriter = some stateLateWriter ∧
      stateLateWriter.tasks[1]? = some (Task.responded { err := none, Work := "w2" }) ∧
      (Delivers { err := none, Work := "w2" } stateLateWriter.resultChan = true ↔
        ((({ err := none, Work := "w2" } : WorkResponse).err = none) ∧
          ({ err := none, Work := "w2" } : WorkResponse).Work ≠ "" ∧
          stateLateWriter.resultChan.closed = false)) :=
  ⟨by decide, by decide,
    (WorkGenerateAPIRequest_delivers_iff ["a", "b"] "h" "d" scheduleLateWriter
      stateLateWriter 1 { err := none, Work := "w2" } (by decide) (by decide)).1⟩

/-- Counterexample to C5 as stated: with an empty peer list no schedule makes the
call return while the timer has not fired, and right after the call reaches its
select neither branch can run. -/
theorem WorkGeneratePeers_empty_no_fail_fast :
    (¬ ∃ schedule s, WorkGeneratePeers [] "h" "d" schedule = some s ∧
        s.result ≠ none ∧ s.timerFired = false) ∧
      step (initState [] "h" "d") Event.selectResult = none ∧
      step (initState [] "h" "d") Event.selectTimeout = none := by
  refine ⟨?_, by decide, by decide⟩
  rintro ⟨schedule, s, h, hres, hf⟩
  have hI := Inv_WorkGeneratePeers h
  obtain ⟨hp, _, _⟩ := run_static h
  cases hr : s.result with
  | none => exact hres hr
  | some p =>
    obtain ⟨w, e⟩ := p
    obtain ⟨_, h2, h3⟩ := hI.ret w e hr
    cases e with
    | none =>
      have hhead := h2 rfl
      have hcap := hI.cap_eq
      have hsp := hI.sent_pending
      rw [hp] at hcap
      simp only [initState, List.length_nil] at hcap
      cases hs : s.resultChan.sent with
      | nil => rw [hs] at hhead; cases hhead
      | cons x xs =>
        rw [hs] at hsp
        simp only [List.length_cons] at hsp
        omega
    | some m =>
      have := (h3 m rfl).1
      rw [hf] at this
      cases this

/-- C5, amended: with an empty peer list WorkGeneratePeers starts no task and
nothing is ever delivered; whenever it has returned, the timer has fired and the
result is the empty work string with the error "Unable to generate work"; and the
timer firing followed by the timeout branch does make it return. -/
theorem WorkGeneratePeers_empty_waits_for_timer (hash difficulty : String)
    (schedule : List Event) (s : State)
    (h : WorkGeneratePeers [] hash difficulty schedule = some s) :
    s.tasks = [] ∧ s.resultChan.sent = [] ∧
    (∀ w e, s.result = some (w, e) →
      s.timerFired = true ∧ w = "" ∧ e = some "Unable to generate work") ∧
    ∃ s1, WorkGeneratePeers [] hash difficulty
        [Event.timer, Event.selectTimeout, Event.deferred] = some s1 ∧
      s1.main = MainPc.returned "" (some "Unable to generate work") := by
  have hI := Inv_WorkGeneratePeers h
  obtain ⟨hp, _, _⟩ := run_static h
  have hcap := hI.cap_eq
  have hlen := hI.tasks_len
  have hsp := hI.sent_pending
  rw [hp] at hcap hlen
  simp only [initState, List.length_nil] at hcap hlen
  have hsent : s.resultChan.sent = [] := by
    apply List.eq_nil_of_length_eq_zero
    omega
  refine ⟨List.eq_nil_of_length_eq_zero hlen, hsent, ?_, ?_⟩
  · intro w e hr
    obtain ⟨_, h2, h3⟩ := hI.ret w e hr
    cases e with
    | none =>
      have := h2 rfl
      rw [hsent] at this
      cases this
    | some m =>
      obtain ⟨a, b, c⟩ := h3 m rfl
      exact ⟨a, b, by rw [c]⟩
  · exact ⟨_, rfl, rfl⟩

/-- Witness for C5: the run of a call without peers that ends by the timeout. -/
theorem WorkGeneratePeers_empty_waits_for_timer_witness :
    WorkGeneratePeers [] "h" "d" [Event.timer, Event.selectTimeout, Event.deferred]
        = some stateNoPeers ∧
      stateNoPeers.tasks = [] ∧ stateNoPeers.resultChan.sent = [] ∧
      (∀ w e, stateNoPeers.result = some (w, e) →
        stateNoPeers.timerFired = true ∧ w = "" ∧ e = some "Unable to generate work") :=
  ⟨by decide,
    (WorkGeneratePeers_empty_waits_for_timer "h" "d"
      [Event.timer, Event.selectTimeout, Event.deferred] stateNoPeers (by decide)).1,
    (WorkGeneratePeers_empty_waits_for_timer "h" "d"
      [Event.timer, Event.selectTimeout, Event.deferred] stateNoPeers (by decide)).2.1,
    (WorkGeneratePeers_empty_waits_for_timer "h" "d"
      [Event.timer, Event.selectTimeout, Event.deferred] stateNoPeers (by decide)).2.2.1⟩


/-- Counterexample to C6 as stated: the run scheduleLateWriter reaches a state where
the result channel is closed while the task of peer b has not finished and still
has a non-empty Work to write. -/
theorem resultChan_closed_with_pending_producer :
    WorkGeneratePeers ["a", "b"] "h" "d" scheduleLateWriter = some stateLateWriter ∧
      stateLateWriter.resultChan.closed = true ∧
      stateLateWriter.tasks[1]? = some (Task.responded { err := none, Work := "w2" }) ∧
      pending stateLateWriter.tasks = 1 := by
  decide

/-- C6, amended: the result channel is closed exactly when WorkGeneratePeers has
returned, whether or not producer tasks are still pending; a producer that writes
after the close has its panic recovered by WriteChannelSafe, delivers nothing,
leaves the channel as it is and finishes; no task and no call is ever left by a
panic. -/
theorem resultChan_close_and_late_writes (peers : List String)
    (hash difficulty : String) (schedule : List Event) (s : State)
    (h : WorkGeneratePeers peers hash difficulty schedule = some s) :
    (s.resultChan.closed = true ↔ ∃ w e, s.main = MainPc.returned w e) ∧
    (∀ (i : Nat) (r : WorkResponse), s.tasks[i]? = some (Task.responded r) →
      s.resultChan.closed = true →
        WriteChannelSafe s.resultChan r.Work =
          Completion.done (s.resultChan, some "send on closed channel") ∧
        step s (Event.write i) = some { s with tasks := s.tasks.set i (Task.finished r) }) ∧
    (∀ (i : Nat) v, s.tasks[i]? ≠ some (Task.crashed v)) ∧
    (∀ v, s.main ≠ MainPc.crashed v) := by
  have hI := Inv_WorkGeneratePeers h
  refine ⟨hI.closed_iff, ?_, hI.no_crash, hI.main_ok⟩
  intro i r ht hc
  have heq := WorkGenerateAPIRequest_eq r s.resultChan
  have hg : ¬ (r.err = none ∧ r.Work ≠ "" ∧ s.resultChan.closed = false) := by
    rw [hc]
    simp
  rw [if_neg hg] at heq
  constructor
  · simp [WriteChannelSafe, chanSend, hc, WriteChannelSafe_deferred]
  · simp [step, ht, heq]

/-- Witness for C6: the late writer of scheduleLateWriter finishes without effect. -/
theorem resultChan_close_and_late_writes_witness :
    WorkGeneratePeers ["a", "b"] "h" "d" scheduleLateWriter = some stateLateWriter ∧
      (stateLateWriter.resultChan.closed = true ↔
        ∃ w e, stateLateWriter.main = MainPc.returned w e) :=
  ⟨by decide,
    (resultChan_close_and_late_writes ["a", "b"] "h" "d" scheduleLateWriter
      stateLateWriter (by decide)).1⟩

/-- C7: in every reachable state of a call the capacity of the result channel is
the number of peers, there is one task per peer, the number of values ever sent plus
the number of tasks still pending is at most the number of peers (so at most the
capacity), a finished task cannot write again, one write adds at most one value, and
a write by a pending task on the open channel is never blocked, also after the call
has taken its decision. -/
theorem resultChan_capacity_never_blocks (peers : List String)
    (hash difficulty : String) (schedule : List Event) (s : State)
    (h : WorkGeneratePeers peers hash difficulty schedule = some s) :
    s.resultChan.cap = peers.length ∧ s.tasks.length = peers.length ∧
    s.resultChan.sent.length + pending s.tasks ≤ peers.length ∧
    s.resultChan.sent.length ≤ s.resultChan.cap ∧
    (∀ (i : Nat) (r : WorkResponse), s.tasks[i]? = some (Task.finished r) →
      step s (Event.write i) = none ∧ ∀ r2, step s (Event.respond i r2) = none) ∧
    (∀ (i : Nat) s1, step s (Event.write i) = some s1 →
      s1.resultChan.sent.length ≤ s.resultChan.sent.length + 1) ∧
    (∀ (i : Nat) (r : WorkResponse), s.tasks[i]? = some (Task.responded r) →
      s.resultChan.closed = false →
        s.resultChan.buf.length < s.resultChan.cap ∧
        chanSend s.resultChan r.Work ≠ Completion.blocked ∧
        WorkGenerateAPIRequest r s.resultChan ≠ Completion.blocked ∧
        step s (Event.write i) ≠ none) := by
  have hI := Inv_WorkGeneratePeers h
  obtain ⟨hp, _, _⟩ := run_static h
  have hcap := hI.cap_eq
  have hlen := hI.tasks_len
  have hsp := hI.sent_pending
  rw [hp] at hcap hlen
  simp only [initState] at hcap hlen
  refine ⟨hcap, hlen, by omega, by omega, ?_, ?_, ?_⟩
  · intro i r ht
    constructor
    · simp [step, ht]
    · intro r2
      simp [step, ht]
  · intro i s1 hstep
    simp only [step] at hstep
    split at hstep
    · next r ht =>
      rw [WorkGenerateAPIRequest_eq] at hstep
      by_cases hg : r.err = none ∧ r.Work ≠ "" ∧ s.resultChan.closed = false
      · rw [if_pos hg] at hstep
        by_cases hfree : s.resultChan.buf.length < s.resultChan.cap
        · rw [if_pos hfree] at hstep
          simp only at hstep
          injection hstep with hstep
          subst hstep
          simp
        · rw [if_neg hfree] at hstep
          cases hstep
      · rw [if_neg hg] at hstep
        simp only at hstep
        injection hstep with hstep
        subst hstep
        simp
    · cases hstep
  · intro i r ht hopen
    have hpos := pending_pos_of_getElem? s.tasks i (Task.responded r) ht rfl
    have hfree : s.resultChan.buf.length < s.resultChan.cap := by
      have h2 := hI.buf_le
      omega
    have heq := WorkGenerateAPIRequest_eq r s.resultChan
    refine ⟨hfree, ?_, ?_, ?_⟩
    · simp [chanSend, hopen, hfree]
    · obtain ⟨out1, h1⟩ := WorkGenerateAPIRequest_done_of_free r s.resultChan hfree
      rw [h1]
      simp
    · obtain ⟨out1, h1⟩ := WorkGenerateAPIRequest_done_of_free r s.resultChan hfree
      simp [step, ht, h1]

/-- Witness for C7: the channel of the two-peer run scheduleBothAnswer. -/
theorem resultChan_capacity_never_blocks_witness :
    WorkGeneratePeers ["a", "b"] "h" "d" scheduleBothAnswer = some stateBothAnswer ∧
      stateBothAnswer.resultChan.cap = ["a", "b"].length ∧
      stateBothAnswer.tasks.length = ["a", "b"].length ∧
      stateBothAnswer.resultChan.sent.length + pending stateBothAnswer.tasks
        ≤ ["a", "b"].length :=
  ⟨by decide,
    (resultChan_capacity_never_blocks ["a", "b"] "h" "d" scheduleBothAnswer
      stateBothAnswer (by decide)).1,
    (resultChan_capacity_never_blocks ["a", "b"] "h" "d" scheduleBothAnswer
      stateBothAnswer (by decide)).2.1,
    (resultChan_capacity_never_blocks ["a", "b"] "h" "d" scheduleBothAnswer
      stateBothAnswer (by decide)).2.2.1⟩

/-- C10: WriteChannelSafe never ends in a panic; on a closed channel it returns a
non-nil error and leaves the channel untouched; on an open channel with a free
buffer slot it enqueues the message and returns a nil error. -/
theorem WriteChannelSafe_recovers (out : Chan) (msg : String) :
    (∀ v, WriteChannelSafe out msg ≠ Completion.panicked v) ∧
    (out.closed = true →
      WriteChannelSafe out msg = Completion.done (out, some "send on closed channel")) ∧
    (out.closed = false → out.buf.length < out.cap →
      WriteChannelSafe out msg =
        Completion.done ({ out with buf := out.buf ++ [msg], sent := out.sent ++ [msg] },
          none)) := by
  refine ⟨?_, ?_, ?_⟩
  · intro v
    rw [WriteChannelSafe_eq]
    split
    · simp
    · split <;> simp
  · intro hc
    simp [WriteChannelSafe, chanSend, hc, WriteChannelSafe_deferred]
  · intro hc hfree
    simp [WriteChannelSafe, chanSend, hc, hfree, WriteChannelSafe_deferred]

end Pow

namespace WalletLib

/-! ## Account registry and CLI: claims -/

theorem foldl_max_ge_init (l : List Nat) (a : Nat) : a ≤ l.foldl max a := by
  induction l generalizing a with
  | nil => exact Nat.le_refl a
  | cons x xs ih => exact Nat.le_trans (Nat.le_max_left a x) (ih (max a x))

theorem foldl_max_ge_mem (l : List Nat) (a i : Nat) (hi : i ∈ l) : i ≤ l.foldl max a := by
  induction l generalizing a with
  | nil => cases hi
  | cons x xs ih =>
    rcases List.mem_cons.mp hi with h | h
    · subst h
      exact Nat.le_trans (Nat.le_max_right a i) (foldl_max_ge_init xs (max a i))
    · exact ih (max a x) h

theorem foldl_max_le (l : List Nat) (a b : Nat) (ha : a ≤ b) (hl : ∀ i ∈ l, i ≤ b) :
    l.foldl max a ≤ b := by
  induction l generalizing a with
  | nil => exact ha
  | cons x xs ih =>
    apply ih
    · exact Nat.max_le.mpr ⟨ha, hl x (List.mem_cons_self x xs)⟩
    · intro i hi
      exact hl i (List.mem_cons_of_mem x hi)

/-- The maximum computed by maxIndex is the highest deterministic index present. -/
theorem maxIndex_eq (db : Database) (walletID m : Nat)
    (hmem : ∃ a ∈ db.accounts, a.WalletID = walletID ∧ a.AccountIndex = some m)
    (hmax : ∀ a ∈ db.accounts, a.WalletID = walletID → ∀ i, a.AccountIndex = some i → i ≤ m) :
    maxIndex db walletID = m := by
  unfold maxIndex
  apply Nat.le_antisymm
  · apply foldl_max_le _ _ _ (Nat.zero_le m)
    intro i hi
    simp only [List.mem_filterMap, List.mem_filter, beq_iff_eq] at hi
    obtain ⟨a, ⟨ha, hw⟩, hidx⟩ := hi
    exact hmax a ha hw i hidx
  · apply foldl_max_ge_mem
    obtain ⟨a, ha, hw, hidx⟩ := hmem
    simp only [List.mem_filterMap, List.mem_filter, beq_iff_eq]
    exact ⟨a, ⟨ha, hw⟩, hidx⟩

/-- Every wallet identifier present in the account table is below freshID. -/
theorem freshID_gt_account (db : Database) (a : Account) (ha : a ∈ db.accounts) :
    a.WalletID < freshID db := by
  unfold freshID
  apply Nat.lt_succ_of_le
  apply foldl_max_ge_mem
  simp only [List.mem_append, List.mem_map]
  exact Or.inr ⟨a, ha, rfl⟩

/-- AccountsCreate on a wallet whose highest deterministic index is m. -/
theorem AccountsCreate_ok (deriveAddress : Bool → String → Nat → String) (nw : NanoWallet)
    (w : Wallet) (n : Int) (m : Nat) (hn : 0 < n)
    (hmem : ∃ a ∈ nw.DB.accounts, a.WalletID = w.ID ∧ a.AccountIndex = some m)
    (hmax : ∀ a ∈ nw.DB.accounts, a.WalletID = w.ID →
      ∀ i, a.AccountIndex = some i → i ≤ m) :
    AccountsCreate deriveAddress nw (some w) n =
      (Except.ok ((List.range n.toNat).map
          (fun k => deterministicAccount deriveAddress nw.Banano w (m + 1 + k))),
        { wallets := nw.DB.wallets,
          accounts := nw.DB.accounts ++ (List.range n.toNat).map
            (fun k => deterministicAccount deriveAddress nw.Banano w (m + 1 + k)) }) := by
  have hmx := maxIndex_eq nw.DB w.ID m hmem hmax
  have hcount : ¬ n ≤ 0 := by omega
  simp only [AccountsCreate, if_neg hcount, hmx]

/-- C8: for a wallet whose highest deterministic account index is m and a count
n > 0, AccountsCreate succeeds and returns exactly n accounts with the indices m+1,
..., m+n in that order, each of that wallet and with the address derived from the
wallet seed at its index, and persists them; and for a wallet just made by
WalletCreate, on any database, AccountsCreate with count 10 returns the indices
1..10 with the derived addresses. -/
theorem AccountsCreate_consecutive_indices
    (deriveAddress : Bool → String → Nat → String) (nw : NanoWallet) (w : Wallet)
    (n : Int) (m : Nat) (hn : 0 < n)
    (hmem : ∃ a ∈ nw.DB.accounts, a.WalletID = w.ID ∧ a.AccountIndex = some m)
    (hmax : ∀ a ∈ nw.DB.accounts, a.WalletID = w.ID →
      ∀ i, a.AccountIndex = some i → i ≤ m) :
    (∃ accts db1, AccountsCreate deriveAddress nw (some w) n = (Except.ok accts, db1) ∧
      (accts.length : Int) = n ∧
      accts.map (fun a => a.AccountIndex) =
        (List.range n.toNat).map (fun k => some (m + 1 + k)) ∧
      (∀ a ∈ accts, a.WalletID = w.ID ∧
        ∃ i, a.AccountIndex = some i ∧ a.Address = deriveAddress nw.Banano w.Seed i) ∧
      db1.accounts = nw.DB.accounts ++ accts) ∧
    (∀ (nw0 : NanoWallet) (seed : String) (w0 : Wallet) (db0 : Database),
      WalletCreate deriveAddress nw0 seed = (Except.ok w0, db0) →
      ∃ accts db1, AccountsCreate deriveAddress { DB := db0, Banano := nw0.Banano }
          (some w0) 10 = (Except.ok accts, db1) ∧
        accts = [1, 2, 3, 4, 5, 6, 7, 8, 9, 10].map
          (fun i => deterministicAccount deriveAddress nw0.Banano w0 i)) := by
  constructor
  · refine ⟨_, _, AccountsCreate_ok deriveAddress nw w n m hn hmem hmax, ?_, ?_, ?_, rfl⟩
    · simp only [List.length_map, List.length_range]
      omega
    · simp [List.map_map, Function.comp_def, deterministicAccount]
    · intro a ha
      simp only [List.mem_map, List.mem_range] at ha
      obtain ⟨k, _, hk⟩ := ha
      subst hk
      exact ⟨rfl, m + 1 + k, rfl, rfl⟩
  · intro nw0 seed w0 db0 hcreate
    unfold WalletCreate at hcreate
    split at hcreate
    · simp only [Prod.mk.injEq, Except.ok.injEq] at hcreate
      obtain ⟨hw, hdb⟩ := hcreate
      subst hdb
      have hid : w0.ID = freshID nw0.DB := by rw [← hw]
      have h := AccountsCreate_ok deriveAddress
        { DB := { wallets := nw0.DB.wallets ++ [w0],
                  accounts := nw0.DB.accounts ++
                    [deterministicAccount deriveAddress nw0.Banano w0 0] },
          Banano := nw0.Banano } w0 10 0 (by decide)
        ⟨deterministicAccount deriveAddress nw0.Banano w0 0, by simp, rfl, rfl⟩
        (by
          intro a ha hwid i hi
          simp only [List.mem_append, List.mem_singleton] at ha
          rcases ha with ha | ha
          · have := freshID_gt_account nw0.DB a ha
            omega
          · subst ha
            simp only [deterministicAccount, Option.some.injEq] at hi
            omega)
      rw [hw]
      exact ⟨_, _, h, by simp [List.range_succ]⟩
    · simp at hcreate

/-- Witness for C8: the wallet of TestAccountsCreate, created on the empty database,
then ten accounts. -/
theorem AccountsCreate_consecutive_indices_witness :
    WalletCreate exampleAddress emptyNano testSeed = (Except.ok testWallet, testDB) ∧
      ∃ accts db1, AccountsCreate exampleAddress { DB := testDB, Banano := false }
          (some testWallet) 10 = (Except.ok accts, db1) ∧
        (accts.length : Int) = 10 ∧
        accts.map (fun a => a.AccountIndex) =
          (List.range 10).map (fun k => some (0 + 1 + k)) := by
  refine ⟨by decide, ?_⟩
  obtain ⟨⟨accts, db1, h1, h2, h3, _, _⟩, _⟩ :=
    AccountsCreate_consecutive_indices exampleAddress { DB := testDB, Banano := false }
      testWallet 10 0 (by decide)
      ⟨deterministicAccount exampleAddress false testWallet 0, by decide, rfl, rfl⟩
      (by decide)
  exact ⟨accts, db1, h1, h2, h3⟩

/-- C9: for every seed that is not exactly 64 hexadecimal characters, among them
the empty string and "invalid seed", WalletCreate fails with ErrInvalidSeed and
leaves the database as it was; and the wallet create branch of the CLI calls
WalletCreate only with seeds that pass the validation. -/
theorem WalletCreate_rejects_invalid_seed
    (deriveAddress : Bool → String → Nat → String) (nw : NanoWallet) (seed : String)
    (h : ¬ (seed.data.length = 64 ∧ ∀ c ∈ seed.data, isHexDigit c = true)) :
    WalletCreate deriveAddress nw seed = (Except.error WalletError.ErrInvalidSeed, nw.DB) ∧
    WalletCreate deriveAddress nw "" = (Except.error WalletError.ErrInvalidSeed, nw.DB) ∧
    WalletCreate deriveAddress nw "invalid seed"
      = (Except.error WalletError.ErrInvalidSeed, nw.DB) ∧
    (∀ (walletCreateSeed : String) (generated : Except String String),
      ∀ s ∈ (main_walletCreate deriveAddress nw walletCreateSeed generated).walletCreateCalls,
        s.data.length = 64 ∧ ∀ c ∈ s.data, isHexDigit c = true) := by
  have hv : ∀ s : String, Validate64HexHash s = true ↔
      (s.data.length = 64 ∧ ∀ c ∈ s.data, isHexDigit c = true) := by
    intro s
    simp [Validate64HexHash, List.all_eq_true]
  have hbad : ∀ s : String, Validate64HexHash s = false →
      WalletCreate deriveAddress nw s = (Except.error WalletError.ErrInvalidSeed, nw.DB) := by
    intro s hs
    simp [WalletCreate, hs]
  refine ⟨hbad seed ?_, hbad "" (by decide), hbad "invalid seed" (by decide), ?_⟩
  · cases hs : Validate64HexHash seed with
    | false => rfl
    | true => exact absurd ((hv seed).mp hs) h
  · intro flag generated s hs
    apply (hv s).mp
    unfold main_walletCreate at hs
    simp only at hs
    split at hs
    · simp at hs
    · next seed2 hseed =>
      cases hval : Validate64HexHash seed2 with
      | false => simp [hval] at hs
      | true =>
        simp only [hval, Bool.not_true, Bool.false_eq_true, if_false] at hs
        split at hs
        · simp only [List.mem_singleton] at hs
          rw [hs]
          exact hval
        · split at hs
          · simp only [List.mem_singleton] at hs
            rw [hs]
            exact hval
          · simp only [List.mem_singleton] at hs
            rw [hs]
            exact hval

/-- Witness for C9: the seed "invalid seed" of TestWalletCreateBadInput. -/
theorem WalletCreate_rejects_invalid_seed_witness :
    ¬ ("invalid seed".data.length = 64 ∧ ∀ c ∈ "invalid seed".data, isHexDigit c = true) ∧
      WalletCreate exampleAddress emptyNano "invalid seed"
        = (Except.error WalletError.ErrInvalidSeed, emptyNano.DB) :=
  ⟨by decide,
    (WalletCreate_rejects_invalid_seed exampleAddress emptyNano "invalid seed"
      (by decide)).1⟩

end WalletLib
